import Mathlib

/-!
Shallow embedding of `image_tokenizer/models/seed_qformer/blip2.py`.

The file defines `Blip2Base` (a thin adapter class over a deep-learning
framework) and a dtype-preserving `LayerNorm` subclass.  Every method of
`Blip2Base` is embedded below as an executable Lean function; external
library calls (the vision-encoder constructors, the Hugging Face
`from_pretrained` loaders, `torch.load`, `spacy.load`, the file-system and
URL predicates) are either abstracted as explicit function parameters or
modelled from the spec's description of their interface, as noted in the
doc comment of each definition.
-/

namespace Blip2

/-- Python runtime errors that the embedded methods can surface. -/
inductive PyErr where
  | runtimeError (msg : String)
  | keyError (key : String)
  | assertionError (msg : String)
  | unboundLocalError
  | attributeError
  | indexError
deriving DecidableEq

/-- Python's `s.endswith(suffix)`: `suffix` is a suffix of `s` (on the
character lists of the two strings). -/
def pyEndsWith (s suffix : String) : Bool :=
  suffix.data.isSuffixOf s.data

/-- Python's `pat in s` for strings: `pat` occurs as a contiguous substring
of `s` (an infix of the character list). -/
def pyContains (s pat : String) : Bool :=
  decide (pat.data <:+: s.data)

/-- Python dict lookup `d[k]` on an insertion-ordered association list,
returning `none` when the key is absent. -/
def pyDictGet {α : Type} (d : List (String × α)) (k : String) : Option α :=
  match d with
  | [] => none
  | (k', v) :: rest => if k' = k then some v else pyDictGet rest k

/-- Decimal digits of `n`, most significant first, with explicit fuel so
that the definition is structurally recursive (the fuel `n + 1` always
suffices because `n / 10 < n` for `n ≥ 10`). -/
def natDecAux : Nat → Nat → List Char
  | 0, _ => []
  | fuel + 1, n =>
    if n < 10 then [Nat.digitChar n]
    else natDecAux fuel (n / 10) ++ [Nat.digitChar (n % 10)]

/-- Decimal digit characters of `n`, most significant first. -/
def natDecChars (n : Nat) : List Char := natDecAux (n + 1) n

/-- Python's `"%d" % n` for a non-negative integer: decimal rendering. -/
def natDec (n : Nat) : String := ⟨natDecChars n⟩

/-! ## `Blip2Base.init_tokenizer` -/

/-- Observable configuration of the tokenizer object returned by
`transformers.BertTokenizer`. -/
structure BertTokenizer where
  name_or_path : String
  truncation_side : String
  bos_token : Option String
deriving DecidableEq

/-- Modelled from the spec: the external pretrained-weight repository is
"fetched by name" — `BertTokenizer.from_pretrained(name, truncation_side=ts)`
returns a tokenizer for checkpoint `name` with the given truncation side and
no `bos_token` registered yet. -/
def BertTokenizer.from_pretrained (name : String) (truncation_side : String) :
    BertTokenizer :=
  { name_or_path := name, truncation_side := truncation_side, bos_token := none }

/-- Modelled from the spec: `tokenizer.add_special_tokens({"bos_token": t})`
registers `t` as the tokenizer's `bos_token`. -/
def BertTokenizer.add_special_tokens (t : BertTokenizer) (bos : String) :
    BertTokenizer :=
  { t with bos_token := some bos }

/-- Embedding of `Blip2Base.init_tokenizer` (blip2.py lines 36-40). -/
def init_tokenizer (truncation_side : String := "right") : BertTokenizer :=
  let tokenizer := BertTokenizer.from_pretrained "bert-base-uncased" truncation_side
  let tokenizer := tokenizer.add_special_tokens "[DEC]"
  tokenizer

/-! ## `Blip2Base.init_Qformer` -/

/-- The fields of the BERT configuration that `init_Qformer` reads or
writes. -/
structure BertConfig where
  hidden_size : Nat
  initializer_range : ℚ
  encoder_width : Nat
  add_cross_attention : Bool
  cross_attention_freq : Nat
  query_length : Nat
deriving DecidableEq

/-- Initialization state of a freshly created tensor/parameter. -/
inductive TensorInit where
  | zeros
  | normal (mean std : ℚ)
deriving DecidableEq

/-- A parameter tensor, represented by its shape and how it was
initialized. -/
structure TensorRep where
  shape : List Nat
  init : TensorInit
deriving DecidableEq

/-- The Q-Former model object; only its configuration is observable here. -/
structure BertLMHeadModel where
  config : BertConfig
deriving DecidableEq

/-- Modelled from the spec: the external
`BertLMHeadModel.from_pretrained("bert-base-uncased", config=c)` loads
pretrained weights and returns a model carrying the given configuration `c`. -/
def BertLMHeadModel.from_pretrained (config : BertConfig) : BertLMHeadModel :=
  ⟨config⟩

/-- Embedding of `Blip2Base.init_Qformer` (blip2.py lines 52-63).  `base_config` stands
for the result of `BertConfig.from_pretrained("bert-base-uncased")`. -/
def init_Qformer (base_config : BertConfig) (num_query_token : Nat)
    (vision_width : Nat) (cross_attention_freq : Nat := 2) :
    BertLMHeadModel × TensorRep :=
  let encoder_config := { base_config with
    encoder_width := vision_width
    add_cross_attention := true
    cross_attention_freq := cross_attention_freq
    query_length := num_query_token }
  let Qformer := BertLMHeadModel.from_pretrained encoder_config
  let query_tokens : TensorRep :=
    { shape := [1, num_query_token, encoder_config.hidden_size], init := .zeros }
  let query_tokens :=
    { query_tokens with init := .normal 0 encoder_config.initializer_range }
  (Qformer, query_tokens)

/-! ## `Blip2Base.init_vision_encoder` -/

/-- A constructed vision encoder; only `num_features` is read here. -/
structure VisualEncoder where
  num_features : Nat
deriving DecidableEq

/-- The `LayerNorm(n)` module constructed over `n` features. -/
structure LayerNormModule where
  normalized_shape : Nat
deriving DecidableEq

/-- The external vision-encoder constructors imported from `eva_vit` and
`clip_vit`, abstracted as functions of the arguments the call sites pass:
`create_eva_vit_g(img_size, drop_path_rate, use_grad_checkpoint, precision,
model_root_dir)` and `create_clip_vit_L(img_size, use_grad_checkpoint,
precision, model_root_dir)`. -/
structure VisionEnv where
  create_eva_vit_g : Nat → ℚ → Bool → String → String → VisualEncoder
  create_clip_vit_L : Nat → Bool → String → String → VisualEncoder

/-- The attributes of `self` that `init_vision_encoder` writes. -/
structure VitNameState where
  vit_name : String
deriving DecidableEq

/-- Embedding of `Blip2Base.init_vision_encoder` (blip2.py lines 65-78).  The `assert`
raises `AssertionError` for names outside the accepted list; for
`"eva2_clip_L"` no branch assigns `visual_encoder`, so reading it on line 76
raises `UnboundLocalError`. -/
def init_vision_encoder (env : VisionEnv) (self : VitNameState)
    (model_name : String) (img_size : Nat) (drop_path_rate : ℚ)
    (use_grad_checkpoint : Bool) (precision : String)
    (model_root_dir : String := "models") :
    Except PyErr (VitNameState × VisualEncoder × LayerNormModule) :=
  if model_name ∉ ["eva_clip_g", "eva2_clip_L", "clip_L"] then
    .error (.assertionError "vit model must be eva_clip_g, eva2_clip_L or clip_L")
  else
    let venc? : Option VisualEncoder :=
      if model_name = "eva_clip_g" then
        some (env.create_eva_vit_g img_size drop_path_rate use_grad_checkpoint
          precision model_root_dir)
      else if model_name = "clip_L" then
        some (env.create_clip_vit_L img_size use_grad_checkpoint precision
          model_root_dir)
      else none
    match venc? with
    | none => .error .unboundLocalError
    | some visual_encoder =>
      let ln_vision := LayerNormModule.mk visual_encoder.num_features
      .ok ({ self with vit_name := model_name }, visual_encoder, ln_vision)

/-! ## `Blip2Base.load_from_pretrained` -/

/-- The external calls made by `load_from_pretrained`, abstracted:
`is_url` and `os.path.isfile` are predicates on the argument,
`download_cached_file` maps a URL to the cached file path,
`torch.load(path, map_location="cpu")` deserializes a checkpoint (a Python
dict, here an association list), and `self.load_state_dict(sd, strict=False)`
returns the load-result message. -/
structure CheckpointEnv (StateDict Msg : Type) where
  is_url : String → Bool
  download_cached_file : String → String
  isfile : String → Bool
  torch_load : String → List (String × StateDict)
  load_state_dict : StateDict → Msg

/-- Embedding of `Blip2Base.load_from_pretrained` (blip2.py lines 80-96).
`checkpoint["model"]` raises `KeyError` when the key is absent. -/
def load_from_pretrained {σ μ : Type} (env : CheckpointEnv σ μ)
    (url_or_filename : String) : Except PyErr μ :=
  let checkpointE : Except PyErr (List (String × σ)) :=
    if env.is_url url_or_filename then
      let cached_file := env.download_cached_file url_or_filename
      .ok (env.torch_load cached_file)
    else if env.isfile url_or_filename then
      .ok (env.torch_load url_or_filename)
    else
      .error (.runtimeError "checkpoint url or path is invalid")
  match checkpointE with
  | .error e => .error e
  | .ok checkpoint =>
    match pyDictGet checkpoint "model" with
    | none => .error (.keyError "model")
    | some state_dict => .ok (env.load_state_dict state_dict)

/-! ## `Blip2Base.lemmatizer` -/

/-- Outcome of one access of the `lemmatizer` property: either it returns a
lemmatizer together with the new value of the backing field
`self._lemmatizer` and a flag recording whether `spacy.load` was invoked, or
it logs an error and terminates the process via `exit(code)`. -/
inductive LemmatizerResult (L : Type) where
  | ret (value : L) (field : Option L) (loaded_spacy : Bool)
  | exitProcess (code : Nat) (logged_error : Bool)
deriving DecidableEq

/-- The `Blip2Base.lemmatizer` property (blip2.py lines 153-170).
`spacy_load` stands for `import spacy; spacy.load("en_core_web_sm")`, with
`none` meaning the import raises `ImportError`; `field` is the current value
of `self._lemmatizer`. -/
def lemmatizer {L : Type} (spacy_load : Option L) (field : Option L) :
    LemmatizerResult L :=
  match field with
  | some l => .ret l (some l) false
  | none =>
    match spacy_load with
    | some l => .ret l (some l) true
    | none => .exitProcess 1 true

/-! ## `Blip2Base.get_optimizer_params` -/

/-- A named parameter of the module: whether it is trainable and its shape. -/
structure PyParam where
  requires_grad : Bool
  shape : List Nat
deriving DecidableEq

/-- One optimizer parameter group, as built by `get_optimizer_params`:
the dict `{"weight_decay": _, "params": _, "lr_scale": _}`.  `α` is `String`
in `parameter_group_names` and `PyParam` in `parameter_group_vars`. -/
structure ParamGroup (α : Type) where
  weight_decay : ℚ
  params : List α
  lr_scale : ℚ
deriving DecidableEq

/-- The `self.visual_encoder` attribute as used by `get_optimizer_params`:
`num_layers` is `get_num_layer()` (no argument) and `layer_of` is
`get_num_layer(var_name)`; both are owned by the external `eva_vit` module
and kept abstract. -/
structure EvaVit where
  num_layers : Nat
  layer_of : String → Nat

/-- The attributes of `self` that `get_optimizer_params` reads. -/
structure OptimSelf where
  vit_name : String
  visual_encoder : EvaVit
  named_parameters : List (String × PyParam)

/-- Append `x` to the `"params"` list of the group stored under key `k`
(`d[k]["params"].append(x)` on the association-list dict). -/
def appendParam {α : Type} (d : List (String × ParamGroup α)) (k : String)
    (x : α) : List (String × ParamGroup α) :=
  d.map fun kv =>
    if kv.1 = k then (kv.1, { kv.2 with params := kv.2.params ++ [x] }) else kv

/-- One iteration of the `for name, param in self.named_parameters()` loop of
`get_optimizer_params` (blip2.py lines 106-129), acting on the pair of dicts
`parameter_group_names` and `parameter_group_vars`. -/
def ogpStep (layer_of : String → Nat) (lr_scales : List ℚ) (weight_decay : ℚ)
    (name : String) (param : PyParam)
    (names : List (String × ParamGroup String))
    (vars : List (String × ParamGroup PyParam)) :
    Except PyErr (List (String × ParamGroup String) × List (String × ParamGroup PyParam)) :=
  if param.requires_grad = false then
    .ok (names, vars)  -- continue: frozen weights
  else
    let gd : String × ℚ :=
      if param.shape.length = 1 ∨ pyEndsWith name ".bias" = true then
        ("no_decay", 0)
      else
        ("decay", weight_decay)
    let layer_id? : Option Nat :=
      if pyContains name "visual_encoder" = true then
        some (layer_of (name.replace "visual_encoder." ""))
      else
        none
    let group_name : String :=
      match layer_id? with
      | some layer_id => "vit_layer_" ++ natDec layer_id ++ "_" ++ gd.1
      | none => gd.1
    match pyDictGet names group_name with
    | some _ =>
      .ok (appendParam names group_name name, appendParam vars group_name param)
    | none =>
      let scaleE : Except PyErr ℚ :=
        match layer_id? with
        | some layer_id =>
          match lr_scales[layer_id]? with
          | some s => .ok s
          | none => .error .indexError  -- lr_scales[layer_id] out of range
        | none => .ok 1
      match scaleE with
      | .error e => .error e
      | .ok scale =>
        let names' := names ++ [(group_name, ⟨gd.2, [], scale⟩)]
        let vars' := vars ++ [(group_name, ⟨gd.2, [], scale⟩)]
        .ok (appendParam names' group_name name, appendParam vars' group_name param)

/-- The whole `for` loop of `get_optimizer_params`, threading the two dicts
through `ogpStep` over the list of named parameters. -/
def ogpLoop (layer_of : String → Nat) (lr_scales : List ℚ) (weight_decay : ℚ)
    (ps : List (String × PyParam))
    (names : List (String × ParamGroup String))
    (vars : List (String × ParamGroup PyParam)) :
    Except PyErr (List (String × ParamGroup String) × List (String × ParamGroup PyParam)) :=
  match ps with
  | [] => .ok (names, vars)
  | (name, param) :: rest =>
    match ogpStep layer_of lr_scales weight_decay name param names vars with
    | .error e => .error e
    | .ok (names₁, vars₁) => ogpLoop layer_of lr_scales weight_decay rest names₁ vars₁

/-- Embedding of `Blip2Base.get_optimizer_params` (blip2.py lines 98-135).  When
`vit_name` is not `"eva_clip_g"` the method calls
`super().get_optimizer_params(...)`, but the base class `torch.nn.Module`
defines no such method, so attribute lookup raises `AttributeError`. -/
def get_optimizer_params (self : OptimSelf) (weight_decay : ℚ)
    (lr_scale : ℚ := 1) : Except PyErr (List (ParamGroup PyParam)) :=
  if self.vit_name = "eva_clip_g" then
    let vit_num_layers := self.visual_encoder.num_layers
    let lr_scales :=
      (List.range (vit_num_layers + 2)).map fun i => lr_scale ^ (vit_num_layers + 1 - i)
    match ogpLoop self.visual_encoder.layer_of lr_scales weight_decay
        self.named_parameters [] [] with
    | .error e => .error e
    | .ok (_names, vars) => .ok (vars.map (·.2))
  else
    .error .attributeError

/-! ## `LayerNorm.forward` -/

/-- The torch dtypes relevant to `LayerNorm.forward`. -/
inductive DType where
  | float16
  | float32
  | bfloat16
  | float64
deriving DecidableEq

/-- A torch tensor: a dtype together with an abstract payload. -/
structure PyTensor (α : Type) where
  dtype : DType
  data : α

/-- Embedding of `x.type(dt)`: cast tensor `x` to dtype `dt`; the payload conversion is
the abstract `cast` function. -/
def PyTensor.type {α : Type} (cast : DType → α → α) (x : PyTensor α)
    (dt : DType) : PyTensor α :=
  { dtype := dt, data := cast dt x.data }

/-- Embedding of `LayerNorm.forward` (blip2.py lines 179-184): `superForward` is the
inherited `nn.LayerNorm.forward`, `cast` the dtype conversion on payloads. -/
def LayerNorm.forward {α : Type} (superForward : PyTensor α → PyTensor α)
    (cast : DType → α → α) (x : PyTensor α) : PyTensor α :=
  let orig_type := x.dtype
  let ret := superForward (x.type cast DType.float32)
  ret.type cast orig_type

/-! ## Canonical form of the optimizer group keys

The loop in `get_optimizer_params` keys its two dicts by the strings
`"decay"`, `"no_decay"`, and `"vit_layer_%d_%s"`.  The definitions below
give those keys a canonical form `(layer_id?, decay?)` used to state the
invariant of the loop; injectivity of the encoding is what guarantees that
a parameter appended to an existing group finds the settings the loop would
have chosen for the parameter itself. -/

/-- The group-name base chosen by the weight-decay test: `"decay"` for
parameters that receive the given weight decay, `"no_decay"` otherwise. -/
def groupBase (decay : Bool) : String := if decay then "decay" else "no_decay"

/-- Canonical form of the dict keys built by the loop: the base name alone
for non-vision parameters, `"vit_layer_%d_%s" % (layer_id, base)` for
vision-encoder parameters. -/
def mkGroupKey : Option Nat → Bool → String
  | some i, decay => "vit_layer_" ++ natDec i ++ "_" ++ groupBase decay
  | none, decay => groupBase decay

/-- The lr-scale assigned to a group keyed by `mkGroupKey lid? _` when the
vision encoder has `L` layers: `lr_scales[lid]` for vision groups, 1
otherwise. -/
def scaleOfLid (L : Nat) (ls : ℚ) : Option Nat → ℚ
  | some lid => ls ^ (L + 1 - lid)
  | none => 1

/-- Invariant tying a stored group to its key: the key has canonical form,
and the group's `weight_decay` and `lr_scale` are the ones the loop assigns
for that form. -/
def KeyOK {α : Type} (L : Nat) (ls wd : ℚ) (k : String) (g : ParamGroup α) : Prop :=
  ∃ lid? decay, k = mkGroupKey lid? decay
    ∧ g.weight_decay = (if decay then wd else 0)
    ∧ g.lr_scale = scaleOfLid L ls lid?

/-! ## Concrete instances used to witness the hypotheses of the theorems -/

/-- A concrete module state for exercising `get_optimizer_params` on the
`"eva_clip_g"` branch. -/
def c2Self : OptimSelf where
  vit_name := "eva_clip_g"
  visual_encoder := ⟨2, fun _ => 1⟩
  named_parameters :=
    [("visual_encoder.blocks.0.weight", ⟨true, [3, 3]⟩),
     ("visual_encoder.blocks.0.bias", ⟨true, [3]⟩),
     ("Qformer.weight", ⟨true, [4, 4]⟩),
     ("Qformer.bias", ⟨true, [4]⟩),
     ("frozen.weight", ⟨false, [2, 2]⟩)]

/-- A concrete checkpoint environment over `Nat` state dicts. -/
def c1Env : CheckpointEnv Nat Nat where
  is_url := fun s => pyContains s "://"
  download_cached_file := fun _ => "cached.pth"
  isfile := fun s => s = "local.pth"
  torch_load := fun p => if p = "cached.pth" then [("model", 1)] else [("model", 2)]
  load_state_dict := fun sd => sd + 10

/-- A concrete vision-encoder environment. -/
def c6Env : VisionEnv where
  create_eva_vit_g := fun _ _ _ _ _ => ⟨1408⟩
  create_clip_vit_L := fun _ _ _ _ => ⟨1024⟩

/-- A concrete module state whose `vit_name` is not `"eva_clip_g"`. -/
def c9Self : OptimSelf where
  vit_name := "clip_L"
  visual_encoder := ⟨0, fun _ => 0⟩
  named_parameters := []

end Blip2

namespace Blip2

/-- Unfolding `natDecAux` is independent of the fuel as long as it covers
the argument. -/
theorem natDecAux_congr :
    ∀ fuel fuel' n : Nat, n < fuel → n < fuel' →
      natDecAux fuel n = natDecAux fuel' n := by
  intro fuel
  induction fuel with
  | zero => intro fuel' n h _; omega
  | succ f ih =>
    intro fuel' n h h'
    cases fuel' with
    | zero => omega
    | succ f' =>
      simp only [natDecAux]
      by_cases h10 : n < 10
      · rw [if_pos h10, if_pos h10]
      · rw [if_neg h10, if_neg h10]
        have hdiv : n / 10 < n := Nat.div_lt_self (by omega) (by norm_num)
        rw [ih f' (n / 10) (by omega) (by omega)]

/-- The recursive unfolding of `natDecChars`. -/
theorem natDecChars_eq (n : Nat) :
    natDecChars n =
      if n < 10 then [Nat.digitChar n]
      else natDecChars (n / 10) ++ [Nat.digitChar (n % 10)] := by
  have hstep : natDecAux (n + 1) n =
      if n < 10 then [Nat.digitChar n]
      else natDecAux n (n / 10) ++ [Nat.digitChar (n % 10)] := rfl
  unfold natDecChars
  rw [hstep]
  by_cases h10 : n < 10
  · rw [if_pos h10, if_pos h10]
  · rw [if_neg h10, if_neg h10]
    have hdiv : n / 10 < n := Nat.div_lt_self (by omega) (by norm_num)
    rw [natDecAux_congr n (n / 10 + 1) (n / 10) (by omega) (by omega)]

/-- Decimal renderings are never empty. -/
theorem natDecChars_ne_nil (n : Nat) : natDecChars n ≠ [] := by
  rw [natDecChars_eq]
  split <;> simp

/-- Decimal digit characters are digits. -/
theorem digitChar_isDigit : ∀ d, d < 10 → (Nat.digitChar d).isDigit = true := by
  decide

/-- The function `Nat.digitChar` is injective below 10. -/
theorem digitChar_inj10 :
    ∀ d₁, d₁ < 10 → ∀ d₂, d₂ < 10 →
      Nat.digitChar d₁ = Nat.digitChar d₂ → d₁ = d₂ := by
  decide

/-- All characters of a decimal rendering are digits. -/
theorem natDecChars_digits (n : Nat) : ∀ c ∈ natDecChars n, c.isDigit = true := by
  induction n using Nat.strong_induction_on with
  | _ n ih =>
    rw [natDecChars_eq]
    by_cases h10 : n < 10
    · rw [if_pos h10]
      intro c hc
      simp only [List.mem_singleton] at hc
      subst hc
      exact digitChar_isDigit n h10
    · rw [if_neg h10]
      intro c hc
      rcases List.mem_append.mp hc with h | h
      · exact ih (n / 10) (Nat.div_lt_self (by omega) (by norm_num)) c h
      · simp only [List.mem_singleton] at h
        subst h
        exact digitChar_isDigit (n % 10) (Nat.mod_lt _ (by norm_num))

/-- Decimal rendering is injective. -/
theorem natDecChars_inj : ∀ n m : Nat, natDecChars n = natDecChars m → n = m := by
  intro n
  induction n using Nat.strong_induction_on with
  | _ n ih =>
    intro m h
    rw [natDecChars_eq n, natDecChars_eq m] at h
    by_cases hn : n < 10 <;> by_cases hm : m < 10
    · rw [if_pos hn, if_pos hm] at h
      simp only [List.cons.injEq, and_true] at h
      exact digitChar_inj10 n hn m hm h
    · rw [if_pos hn, if_neg hm] at h
      exfalso
      have hlen := congrArg List.length h
      simp only [List.length_singleton, List.length_append] at hlen
      exact natDecChars_ne_nil (m / 10)
        (List.length_eq_zero.mp (by omega))
    · rw [if_neg hn, if_pos hm] at h
      exfalso
      have hlen := congrArg List.length h
      simp only [List.length_singleton, List.length_append] at hlen
      exact natDecChars_ne_nil (n / 10)
        (List.length_eq_zero.mp (by omega))
    · rw [if_neg hn, if_neg hm] at h
      obtain ⟨h1, h2⟩ := List.append_inj' h rfl
      simp only [List.cons.injEq, and_true] at h2
      have hd : n % 10 = m % 10 :=
        digitChar_inj10 _ (Nat.mod_lt _ (by norm_num)) _ (Nat.mod_lt _ (by norm_num)) h2
      have hq : n / 10 = m / 10 :=
        ih (n / 10) (Nat.div_lt_self (by omega) (by norm_num)) (m / 10) h1
      omega

/-- A list of digits followed by an underscore-headed tail determines both
parts: the underscore acts as a separator. -/
theorem digits_sep :
    ∀ xs ys t₁ t₂ : List Char,
      (∀ c ∈ xs, c.isDigit = true) → (∀ c ∈ ys, c.isDigit = true) →
      xs ++ '_' :: t₁ = ys ++ '_' :: t₂ → xs = ys ∧ t₁ = t₂ := by
  intro xs
  induction xs with
  | nil =>
    intro ys t₁ t₂ _ hys h
    cases ys with
    | nil => simpa using h
    | cons b ys' =>
      exfalso
      simp only [List.nil_append, List.cons_append, List.cons.injEq] at h
      have hb := hys b (by simp)
      rw [← h.1] at hb
      simp at hb
  | cons a xs' ih =>
    intro ys t₁ t₂ hxs hys h
    cases ys with
    | nil =>
      exfalso
      simp only [List.nil_append, List.cons_append, List.cons.injEq] at h
      have ha := hxs a (by simp)
      rw [h.1] at ha
      simp at ha
    | cons b ys' =>
      simp only [List.cons_append, List.cons.injEq] at h
      obtain ⟨hab, h'⟩ := h
      obtain ⟨h1, h2⟩ :=
        ih ys' t₁ t₂ (fun c hc => hxs c (by simp [hc])) (fun c hc => hys c (by simp [hc])) h'
      exact ⟨by rw [hab, h1], h2⟩

/-- Strings with equal character lists are equal. -/
theorem string_data_inj (s t : String) (h : s.data = t.data) : s = t := by
  cases s
  cases t
  exact congrArg String.mk h

/-- String append acts as append on the character lists. -/
theorem str_data_append (s t : String) : (s ++ t).data = s.data ++ t.data := rfl

/-- The character list of a vision-group key. -/
theorem mkGroupKey_data_some (i : Nat) (d : Bool) :
    (mkGroupKey (some i) d).data =
      "vit_layer_".data ++ (natDecChars i ++ '_' :: (groupBase d).data) := by
  simp [mkGroupKey, natDec, str_data_append, List.append_assoc,
    show "_".data = ['_'] from rfl, natDecChars]

/-- The two base names are distinct, so `groupBase` is injective. -/
theorem groupBase_inj : ∀ d₁ d₂ : Bool, groupBase d₁ = groupBase d₂ → d₁ = d₂ := by
  decide

/-- The key encoding is injective: equal keys come from the same layer id
(or its absence) and the same weight-decay mode. -/
theorem mkGroupKey_inj :
    ∀ (o₁ o₂ : Option Nat) (d₁ d₂ : Bool),
      mkGroupKey o₁ d₁ = mkGroupKey o₂ d₂ → o₁ = o₂ ∧ d₁ = d₂ := by
  have hvhead : ∀ (j : Nat) (d : Bool) (b : Bool),
      groupBase b ≠ mkGroupKey (some j) d := by
    intro j d b h
    have hd := congrArg String.data h
    rw [mkGroupKey_data_some] at hd
    have h1 : (groupBase b).data.head? = some 'v' := by rw [hd]; rfl
    cases b <;> exact absurd h1 (by decide)
  intro o₁ o₂ d₁ d₂ h
  match o₁, o₂ with
  | none, none => exact ⟨rfl, groupBase_inj _ _ h⟩
  | none, some j => exact absurd h (hvhead j d₂ d₁)
  | some i, none => exact absurd h.symm (hvhead i d₁ d₂)
  | some i, some j =>
    have hd := congrArg String.data h
    rw [mkGroupKey_data_some, mkGroupKey_data_some] at hd
    have hd' := List.append_cancel_left hd
    obtain ⟨h1, h2⟩ :=
      digits_sep _ _ _ _ (natDecChars_digits i) (natDecChars_digits j) hd'
    have hij : i = j := natDecChars_inj i j h1
    have hb : d₁ = d₂ := groupBase_inj _ _ (string_data_inj _ _ h2)
    exact ⟨by rw [hij], hb⟩

/-- A key that `pyDictGet` misses occurs nowhere in the dict. -/
theorem pyDictGet_none_forall {α : Type} :
    ∀ {d : List (String × α)} {k : String}, pyDictGet d k = none →
      ∀ kv ∈ d, kv.1 ≠ k := by
  intro d
  induction d with
  | nil => intro k _ kv hkv; cases hkv
  | cons kv rest ih =>
    intro k h kv' hkv'
    obtain ⟨k', v⟩ := kv
    simp only [pyDictGet] at h
    by_cases hk : k' = k
    · rw [if_pos hk] at h; cases h
    · rw [if_neg hk] at h
      rcases List.mem_cons.mp hkv' with rfl | hmem
      · exact hk
      · exact ih h kv' hmem

/-- A `pyDictGet` hit is a member of the dict. -/
theorem pyDictGet_mem {α : Type} :
    ∀ {d : List (String × α)} {k : String} {g : α},
      pyDictGet d k = some g → (k, g) ∈ d := by
  intro d
  induction d with
  | nil => intro k g h; cases h
  | cons kv rest ih =>
    intro k g h
    obtain ⟨k', v⟩ := kv
    simp only [pyDictGet] at h
    by_cases hk : k' = k
    · rw [if_pos hk] at h
      injection h with hv
      subst hk; subst hv
      exact List.mem_cons_self _ _
    · rw [if_neg hk] at h
      exact List.mem_cons_of_mem _ (ih h)

/-- Dicts with the same keys (in order) hit and miss together. -/
theorem pyDictGet_isSome_congr {α β : Type} :
    ∀ (d₁ : List (String × α)) (d₂ : List (String × β)),
      d₁.map Prod.fst = d₂.map Prod.fst →
      ∀ k, (pyDictGet d₁ k).isSome = (pyDictGet d₂ k).isSome := by
  intro d₁
  induction d₁ with
  | nil =>
    intro d₂ h k
    cases d₂ with
    | nil => rfl
    | cons kv rest => simp at h
  | cons kv rest ih =>
    intro d₂ h k
    cases d₂ with
    | nil => simp at h
    | cons kv' rest' =>
      obtain ⟨k₁, v₁⟩ := kv
      obtain ⟨k₂, v₂⟩ := kv'
      simp only [List.map_cons, List.cons.injEq] at h
      obtain ⟨hk12, hrest⟩ := h
      subst hk12
      simp only [pyDictGet]
      by_cases hk : k₁ = k
      · rw [if_pos hk, if_pos hk]; rfl
      · rw [if_neg hk, if_neg hk]
        exact ih rest' hrest k

/-- The update `appendParam` does not change the key sequence. -/
theorem appendParam_map_fst {α : Type} (d : List (String × ParamGroup α))
    (k : String) (x : α) :
    (appendParam d k x).map Prod.fst = d.map Prod.fst := by
  induction d with
  | nil => rfl
  | cons kv rest ih =>
    simp only [appendParam, List.map_cons] at ih ⊢
    by_cases hk : kv.1 = k
    · rw [if_pos hk]; rw [ih]
    · rw [if_neg hk]; rw [ih]

/-- Appending to an absent key leaves the dict unchanged. -/
theorem appendParam_of_none {α : Type} :
    ∀ {d : List (String × ParamGroup α)} {k : String}, pyDictGet d k = none →
      ∀ x : α, appendParam d k x = d := by
  intro d
  induction d with
  | nil => intro k _ x; rfl
  | cons kv rest ih =>
    intro k h x
    obtain ⟨k', v⟩ := kv
    simp only [pyDictGet] at h
    by_cases hk : k' = k
    · rw [if_pos hk] at h; cases h
    · rw [if_neg hk] at h
      have hrest := ih h x
      simp only [appendParam, List.map_cons] at hrest ⊢
      rw [if_neg hk, hrest]

/-- The group under the targeted key receives the appended element. -/
theorem mem_appendParam_self {α : Type} {d : List (String × ParamGroup α)}
    {k : String} {g : ParamGroup α} (h : (k, g) ∈ d) (x : α) :
    (k, { g with params := g.params ++ [x] }) ∈ appendParam d k x := by
  unfold appendParam
  exact List.mem_map.mpr ⟨(k, g), h, by simp⟩

/-- Every group survives `appendParam` with its settings intact and its
members preserved. -/
theorem mem_appendParam_mono {α : Type} {d : List (String × ParamGroup α)}
    {k' : String} {g : ParamGroup α} (h : (k', g) ∈ d) (k : String) (x : α) :
    ∃ g', (k', g') ∈ appendParam d k x ∧ g'.weight_decay = g.weight_decay
      ∧ g'.lr_scale = g.lr_scale ∧ ∀ y ∈ g.params, y ∈ g'.params := by
  by_cases hk : k' = k
  · subst hk
    exact ⟨_, mem_appendParam_self h x, rfl, rfl,
      fun y hy => List.mem_append_left _ hy⟩
  · refine ⟨g, ?_, rfl, rfl, fun _ hy => hy⟩
    unfold appendParam
    exact List.mem_map.mpr ⟨(k', g), h, by simp [hk]⟩

/-- Conversely, every group of `appendParam d k x` descends from a group of
`d` with the same key and settings. -/
theorem mem_appendParam_inv {α : Type} {d : List (String × ParamGroup α)}
    {k k' : String} {x : α} {g' : ParamGroup α}
    (h : (k', g') ∈ appendParam d k x) :
    ∃ g, (k', g) ∈ d ∧ g'.weight_decay = g.weight_decay
      ∧ g'.lr_scale = g.lr_scale := by
  unfold appendParam at h
  obtain ⟨⟨k₀, g₀⟩, hmem, heq⟩ := List.mem_map.mp h
  by_cases hk : k₀ = k
  · rw [if_pos hk] at heq
    injection heq with h1 h2
    subst h1
    exact ⟨g₀, hmem, by rw [← h2], by rw [← h2]⟩
  · rw [if_neg hk] at heq
    injection heq with h1 h2
    subst h1
    exact ⟨g₀, hmem, by rw [← h2], by rw [← h2]⟩

/-- Dict update of the optimizer loop when the group already exists:
appending the parameter to both dicts keeps them aligned, preserves the key
invariant and every existing group, and lands the parameter in a group
carrying the settings determined by the key's canonical form. -/
theorem ogpFound_spec (L : Nat) (ls wd : ℚ) (lidOpt : Option Nat) (flag : Bool)
    (names : List (String × ParamGroup String))
    (vars : List (String × ParamGroup PyParam))
    (hA : names.map Prod.fst = vars.map Prod.fst)
    (hC : ∀ k g, (k, g) ∈ vars → KeyOK L ls wd k g)
    (name : String) (param : PyParam) (gN : ParamGroup String)
    (hfound : pyDictGet names (mkGroupKey lidOpt flag) = some gN) :
    (appendParam names (mkGroupKey lidOpt flag) name).map Prod.fst
        = (appendParam vars (mkGroupKey lidOpt flag) param).map Prod.fst
    ∧ (∀ k g, (k, g) ∈ appendParam vars (mkGroupKey lidOpt flag) param →
        KeyOK L ls wd k g)
    ∧ (∀ k g, (k, g) ∈ vars →
        ∃ g', (k, g') ∈ appendParam vars (mkGroupKey lidOpt flag) param
          ∧ g'.weight_decay = g.weight_decay ∧ g'.lr_scale = g.lr_scale
          ∧ ∀ y ∈ g.params, y ∈ g'.params)
    ∧ (∃ k g, (k, g) ∈ appendParam vars (mkGroupKey lidOpt flag) param
        ∧ param ∈ g.params
        ∧ g.lr_scale = scaleOfLid L ls lidOpt
        ∧ g.weight_decay = (if flag = true then wd else 0)) := by
  have hsome : (pyDictGet vars (mkGroupKey lidOpt flag)).isSome = true := by
    rw [← pyDictGet_isSome_congr names vars hA, hfound]
    rfl
  obtain ⟨gV, hgV⟩ := Option.isSome_iff_exists.mp hsome
  have hmemV := pyDictGet_mem hgV
  obtain ⟨lid?', d', hkey, hw, hsc⟩ := hC _ _ hmemV
  obtain ⟨hlid, hd⟩ := mkGroupKey_inj lidOpt lid?' flag d' hkey
  subst hlid
  subst hd
  refine ⟨?_, ?_, ?_, ?_⟩
  · rw [appendParam_map_fst, appendParam_map_fst, hA]
  · intro k g hmem
    obtain ⟨g₀, hg₀, hwq, hlq⟩ := mem_appendParam_inv hmem
    obtain ⟨a, b, hk, hw₀, hs₀⟩ := hC _ _ hg₀
    exact ⟨a, b, hk, by rw [hwq, hw₀], by rw [hlq, hs₀]⟩
  · intro k g hmem
    exact mem_appendParam_mono hmem _ _
  · exact ⟨mkGroupKey lidOpt flag, _, mem_appendParam_self hmemV param,
      List.mem_append_right _ (List.mem_singleton.mpr rfl), hsc, hw⟩

/-- Dict update of the optimizer loop when the group is created: the new
group is stored with the weight decay and lr-scale the loop assigns for the
key's canonical form, and the parameter is appended to it. -/
theorem ogpMiss_spec (L : Nat) (ls wd : ℚ) (lidOpt : Option Nat) (flag : Bool)
    (twd : ℚ) (htwd : twd = if flag = true then wd else 0)
    (s : ℚ) (hs : s = scaleOfLid L ls lidOpt)
    (names : List (String × ParamGroup String))
    (vars : List (String × ParamGroup PyParam))
    (hA : names.map Prod.fst = vars.map Prod.fst)
    (hC : ∀ k g, (k, g) ∈ vars → KeyOK L ls wd k g)
    (name : String) (param : PyParam)
    (hfound : pyDictGet names (mkGroupKey lidOpt flag) = none) :
    (appendParam (names ++ [(mkGroupKey lidOpt flag, ⟨twd, [], s⟩)])
        (mkGroupKey lidOpt flag) name).map Prod.fst
      = (appendParam (vars ++ [(mkGroupKey lidOpt flag, ⟨twd, [], s⟩)])
          (mkGroupKey lidOpt flag) param).map Prod.fst
    ∧ (∀ k g, (k, g) ∈ appendParam (vars ++ [(mkGroupKey lidOpt flag, ⟨twd, [], s⟩)])
          (mkGroupKey lidOpt flag) param → KeyOK L ls wd k g)
    ∧ (∀ k g, (k, g) ∈ vars →
        ∃ g', (k, g') ∈ appendParam (vars ++ [(mkGroupKey lidOpt flag, ⟨twd, [], s⟩)])
            (mkGroupKey lidOpt flag) param
          ∧ g'.weight_decay = g.weight_decay ∧ g'.lr_scale = g.lr_scale
          ∧ ∀ y ∈ g.params, y ∈ g'.params)
    ∧ (∃ k g, (k, g) ∈ appendParam (vars ++ [(mkGroupKey lidOpt flag, ⟨twd, [], s⟩)])
          (mkGroupKey lidOpt flag) param
        ∧ param ∈ g.params
        ∧ g.lr_scale = scaleOfLid L ls lidOpt
        ∧ g.weight_decay = (if flag = true then wd else 0)) := by
  have hnone : pyDictGet vars (mkGroupKey lidOpt flag) = none := by
    cases h2 : pyDictGet vars (mkGroupKey lidOpt flag) with
    | none => rfl
    | some g =>
      have hcongr := pyDictGet_isSome_congr names vars hA (mkGroupKey lidOpt flag)
      rw [hfound, h2] at hcongr
      cases hcongr
  have happ : ∀ {α : Type} (d : List (String × ParamGroup α)),
      pyDictGet d (mkGroupKey lidOpt flag) = none → ∀ x : α,
      appendParam (d ++ [(mkGroupKey lidOpt flag, (⟨twd, [], s⟩ : ParamGroup α))])
          (mkGroupKey lidOpt flag) x
        = d ++ [(mkGroupKey lidOpt flag, (⟨twd, [x], s⟩ : ParamGroup α))] := by
    intro α d hd x
    have h1 : appendParam (d ++ [(mkGroupKey lidOpt flag, (⟨twd, [], s⟩ : ParamGroup α))])
        (mkGroupKey lidOpt flag) x
        = appendParam d (mkGroupKey lidOpt flag) x
          ++ appendParam [(mkGroupKey lidOpt flag, (⟨twd, [], s⟩ : ParamGroup α))]
            (mkGroupKey lidOpt flag) x := by
      simp [appendParam]
    rw [h1, appendParam_of_none hd]
    simp [appendParam]
  refine ⟨?_, ?_, ?_, ?_⟩
  · rw [happ names hfound, happ vars hnone]
    simp [hA]
  · intro k g hmem
    rw [happ vars hnone] at hmem
    rcases List.mem_append.mp hmem with h | h
    · exact hC _ _ h
    · simp only [List.mem_singleton] at h
      injection h with h1 h2
      subst h1
      subst h2
      exact ⟨lidOpt, flag, rfl, htwd, hs⟩
  · intro k g hmem
    refine ⟨g, ?_, rfl, rfl, fun _ hy => hy⟩
    rw [happ vars hnone]
    exact List.mem_append_left _ hmem
  · refine ⟨mkGroupKey lidOpt flag, ⟨twd, [param], s⟩, ?_, ?_, hs, htwd⟩
    · rw [happ vars hnone]
      exact List.mem_append_right _ (List.mem_singleton.mpr rfl)
    · exact List.mem_singleton.mpr rfl

/-- One loop iteration of `get_optimizer_params` over a named parameter
succeeds, keeps the two dicts aligned, preserves the key invariant, keeps
every existing group's settings and members, and, for a trainable
parameter, places it in a group with the layer-wise learning-rate scale and
the weight decay the claim describes. -/
theorem ogpStep_spec (layer_of : String → Nat) (L : Nat) (ls wd : ℚ)
    (hbound : ∀ str, layer_of str ≤ L + 1)
    (name : String) (param : PyParam)
    (names : List (String × ParamGroup String))
    (vars : List (String × ParamGroup PyParam))
    (hA : names.map Prod.fst = vars.map Prod.fst)
    (hC : ∀ k g, (k, g) ∈ vars → KeyOK L ls wd k g) :
    ∃ names₁ vars₁,
      ogpStep layer_of ((List.range (L + 2)).map fun i => ls ^ (L + 1 - i)) wd
          name param names vars = .ok (names₁, vars₁)
      ∧ names₁.map Prod.fst = vars₁.map Prod.fst
      ∧ (∀ k g, (k, g) ∈ vars₁ → KeyOK L ls wd k g)
      ∧ (∀ k g, (k, g) ∈ vars → ∃ g', (k, g') ∈ vars₁
          ∧ g'.weight_decay = g.weight_decay ∧ g'.lr_scale = g.lr_scale
          ∧ ∀ y ∈ g.params, y ∈ g'.params)
      ∧ (param.requires_grad = true →
          ∃ k g, (k, g) ∈ vars₁ ∧ param ∈ g.params
            ∧ g.lr_scale = (if pyContains name "visual_encoder" = true then
                ls ^ (L + 1 - layer_of (name.replace "visual_encoder." "")) else 1)
            ∧ g.weight_decay = (if param.shape.length = 1 ∨ pyEndsWith name ".bias" = true
                then 0 else wd)) := by
  by_cases hrg : param.requires_grad = false
  · refine ⟨names, vars, ?_, hA, hC,
      fun k g h => ⟨g, h, rfl, rfl, fun _ hy => hy⟩,
      fun htrue => absurd hrg (by simp [htrue])⟩
    unfold ogpStep
    rw [if_pos hrg]
  · have hidx : ∀ _h : pyContains name "visual_encoder" = true,
        ((List.range (L + 2)).map fun i => ls ^ (L + 1 - i))[layer_of
            (name.replace "visual_encoder." "")]? =
          some (ls ^ (L + 1 - layer_of (name.replace "visual_encoder." ""))) := by
      intro _h
      have hlt : layer_of (name.replace "visual_encoder." "") < L + 2 := by
        have := hbound (name.replace "visual_encoder." "")
        omega
      simp [List.getElem?_map, List.getElem?_range, hlt]
    unfold ogpStep
    rw [if_neg hrg]
    by_cases hnd : param.shape.length = 1 ∨ pyEndsWith name ".bias" = true
    · rw [if_pos hnd]
      by_cases hv : pyContains name "visual_encoder" = true
      · rw [if_pos hv]
        dsimp only
        rw [hidx hv]
        cases hfound : pyDictGet names
            ("vit_layer_" ++ natDec (layer_of (name.replace "visual_encoder." "")) ++ "_"
              ++ "no_decay") with
        | some gN =>
          obtain ⟨h1, h2, h3, h4⟩ :=
            ogpFound_spec L ls wd (some (layer_of (name.replace "visual_encoder." "")))
              false names vars hA hC name param gN hfound
          exact ⟨_, _, rfl, h1, h2, h3, fun _ => by
            simpa [hv, hnd, scaleOfLid] using h4⟩
        | none =>
          obtain ⟨h1, h2, h3, h4⟩ :=
            ogpMiss_spec L ls wd (some (layer_of (name.replace "visual_encoder." "")))
              false 0 (by simp) (ls ^ (L + 1 - layer_of (name.replace "visual_encoder." "")))
              rfl names vars hA hC name param hfound
          exact ⟨_, _, rfl, h1, h2, h3, fun _ => by
            simpa [hv, hnd, scaleOfLid] using h4⟩
      · rw [if_neg hv]
        dsimp only
        cases hfound : pyDictGet names "no_decay" with
        | some gN =>
          obtain ⟨h1, h2, h3, h4⟩ :=
            ogpFound_spec L ls wd none false names vars hA hC name param gN hfound
          exact ⟨_, _, rfl, h1, h2, h3, fun _ => by
            simpa [hv, hnd, scaleOfLid] using h4⟩
        | none =>
          obtain ⟨h1, h2, h3, h4⟩ :=
            ogpMiss_spec L ls wd none false 0 (by simp) 1 rfl names vars hA hC name param
              hfound
          exact ⟨_, _, rfl, h1, h2, h3, fun _ => by
            simpa [hv, hnd, scaleOfLid] using h4⟩
    · rw [if_neg hnd]
      by_cases hv : pyContains name "visual_encoder" = true
      · rw [if_pos hv]
        dsimp only
        rw [hidx hv]
        cases hfound : pyDictGet names
            ("vit_layer_" ++ natDec (layer_of (name.replace "visual_encoder." "")) ++ "_"
              ++ "decay") with
        | some gN =>
          obtain ⟨h1, h2, h3, h4⟩ :=
            ogpFound_spec L ls wd (some (layer_of (name.replace "visual_encoder." "")))
              true names vars hA hC name param gN hfound
          exact ⟨_, _, rfl, h1, h2, h3, fun _ => by
            simpa [hv, hnd, scaleOfLid] using h4⟩
        | none =>
          obtain ⟨h1, h2, h3, h4⟩ :=
            ogpMiss_spec L ls wd (some (layer_of (name.replace "visual_encoder." "")))
              true wd (by simp) (ls ^ (L + 1 - layer_of (name.replace "visual_encoder." "")))
              rfl names vars hA hC name param hfound
          exact ⟨_, _, rfl, h1, h2, h3, fun _ => by
            simpa [hv, hnd, scaleOfLid] using h4⟩
      · rw [if_neg hv]
        dsimp only
        cases hfound : pyDictGet names "decay" with
        | some gN =>
          obtain ⟨h1, h2, h3, h4⟩ :=
            ogpFound_spec L ls wd none true names vars hA hC name param gN hfound
          exact ⟨_, _, rfl, h1, h2, h3, fun _ => by
            simpa [hv, hnd, scaleOfLid] using h4⟩
        | none =>
          obtain ⟨h1, h2, h3, h4⟩ :=
            ogpMiss_spec L ls wd none true wd (by simp) 1 rfl names vars hA hC name param
              hfound
          exact ⟨_, _, rfl, h1, h2, h3, fun _ => by
            simpa [hv, hnd, scaleOfLid] using h4⟩

/-- The optimizer loop succeeds from aligned invariant-respecting dicts,
preserves every existing group, and places every trainable parameter of the
remaining list in a group with the claimed settings. -/
theorem ogpLoop_spec (layer_of : String → Nat) (L : Nat) (ls wd : ℚ)
    (hbound : ∀ str, layer_of str ≤ L + 1) :
    ∀ (ps : List (String × PyParam))
      (names : List (String × ParamGroup String))
      (vars : List (String × ParamGroup PyParam)),
      names.map Prod.fst = vars.map Prod.fst →
      (∀ k g, (k, g) ∈ vars → KeyOK L ls wd k g) →
      ∃ names' vars',
        ogpLoop layer_of ((List.range (L + 2)).map fun i => ls ^ (L + 1 - i)) wd
            ps names vars = .ok (names', vars')
        ∧ (∀ k g, (k, g) ∈ vars → ∃ g', (k, g') ∈ vars'
            ∧ g'.weight_decay = g.weight_decay ∧ g'.lr_scale = g.lr_scale
            ∧ ∀ y ∈ g.params, y ∈ g'.params)
        ∧ (∀ nm p, (nm, p) ∈ ps → p.requires_grad = true →
            ∃ k g, (k, g) ∈ vars' ∧ p ∈ g.params
              ∧ g.lr_scale = (if pyContains nm "visual_encoder" = true then
                  ls ^ (L + 1 - layer_of (nm.replace "visual_encoder." "")) else 1)
              ∧ g.weight_decay = (if p.shape.length = 1 ∨ pyEndsWith nm ".bias" = true
                  then 0 else wd)) := by
  intro ps
  induction ps with
  | nil =>
    intro names vars _ _
    exact ⟨names, vars, rfl,
      fun k g h => ⟨g, h, rfl, rfl, fun _ hy => hy⟩, by simp⟩
  | cons hd rest ih =>
    intro names vars hA hC
    obtain ⟨nm, p⟩ := hd
    obtain ⟨n₁, v₁, heq, hA₁, hC₁, hpres, hplace⟩ :=
      ogpStep_spec layer_of L ls wd hbound nm p names vars hA hC
    obtain ⟨n', v', heq', hpres', hplace'⟩ := ih n₁ v₁ hA₁ hC₁
    refine ⟨n', v', ?_, ?_, ?_⟩
    · simp only [ogpLoop]
      rw [heq]
      exact heq'
    · intro k g hmem
      obtain ⟨g₁, hm₁, hw₁, hl₁, hsub₁⟩ := hpres k g hmem
      obtain ⟨g₂, hm₂, hw₂, hl₂, hsub₂⟩ := hpres' k g₁ hm₁
      exact ⟨g₂, hm₂, by rw [hw₂, hw₁], by rw [hl₂, hl₁],
        fun y hy => hsub₂ y (hsub₁ y hy)⟩
    · intro nm' p' hmem hrg
      rcases List.mem_cons.mp hmem with heqp | hmem'
      · injection heqp with h1 h2
        subst h1
        subst h2
        obtain ⟨k, g, hkg, hp, hl, hw⟩ := hplace hrg
        obtain ⟨g₂, hm₂, hw₂, hl₂, hsub₂⟩ := hpres' k g hkg
        exact ⟨k, g₂, hm₂, hsub₂ _ hp, by rw [hl₂, hl], by rw [hw₂, hw]⟩
      · exact hplace' nm' p' hmem' hrg

/-- C1: `load_from_pretrained` raises `RuntimeError` exactly when the
argument is neither a URL nor a path to an existing file; a URL is first
downloaded to a cached file and then deserialized, an existing local file is
deserialized directly, and on success the method returns the result of
loading `checkpoint["model"]` into the module's state. -/
theorem load_from_pretrained_spec {σ μ : Type} (env : CheckpointEnv σ μ)
    (u : String) :
    ((∃ msg, load_from_pretrained env u = .error (.runtimeError msg)) ↔
      env.is_url u = false ∧ env.isfile u = false)
    ∧ (env.is_url u = true →
        ∀ sd, pyDictGet (env.torch_load (env.download_cached_file u)) "model" = some sd →
          load_from_pretrained env u = .ok (env.load_state_dict sd))
    ∧ (env.is_url u = false → env.isfile u = true →
        ∀ sd, pyDictGet (env.torch_load u) "model" = some sd →
          load_from_pretrained env u = .ok (env.load_state_dict sd)) := by
  refine ⟨⟨?_, ?_⟩, ?_, ?_⟩
  · rintro ⟨msg, hmsg⟩
    by_cases hu : env.is_url u = true
    · exfalso
      simp only [load_from_pretrained, hu, if_true] at hmsg
      cases hm : pyDictGet (env.torch_load (env.download_cached_file u)) "model" <;>
        simp [hm] at hmsg
    · by_cases hf : env.isfile u = true
      · exfalso
        simp only [load_from_pretrained, if_neg hu, hf, if_true] at hmsg
        cases hm : pyDictGet (env.torch_load u) "model" <;> simp [hm] at hmsg
      · simp only [Bool.not_eq_true] at hu hf
        exact ⟨hu, hf⟩
  · rintro ⟨hu, hf⟩
    exact ⟨"checkpoint url or path is invalid", by
      simp [load_from_pretrained, hu, hf]⟩
  · intro hu sd hsd
    simp [load_from_pretrained, hu, hsd]
  · intro hu hf sd hsd
    simp [load_from_pretrained, hu, hf, hsd]

/-- Witness for C1 at concrete inputs: a URL, an existing file, and an
invalid source. -/
theorem load_from_pretrained_spec_witness :
    load_from_pretrained c1Env "http://host/ckpt.pth" = .ok 11
    ∧ load_from_pretrained c1Env "local.pth" = .ok 12
    ∧ (∃ msg, load_from_pretrained c1Env "nonexistent" = .error (.runtimeError msg)) :=
  ⟨(load_from_pretrained_spec c1Env "http://host/ckpt.pth").2.1 (by decide) 1 (by decide),
   (load_from_pretrained_spec c1Env "local.pth").2.2 (by decide) (by decide) 2 (by decide),
   (load_from_pretrained_spec c1Env "nonexistent").1.mpr ⟨by decide, by decide⟩⟩

/-- C3: when the stored lemmatizer field is `None` and importing spacy (or
its `en_core_web_sm` model) fails, the `lemmatizer` property logs an error
and terminates the process with exit status 1. -/
theorem lemmatizer_spacy_missing_exits {L : Type} :
    lemmatizer (none : Option L) (none : Option L) = .exitProcess 1 true := rfl

/-- C4: the `lemmatizer` property is a lazily initialized singleton: with
the field already populated it returns the stored object, leaves the field
unchanged and does not invoke `spacy.load`; on first access (field `None`)
it loads the model, stores it and returns it. -/
theorem lemmatizer_lazy_singleton {L : Type} (spacy_load : Option L) (l : L) :
    lemmatizer spacy_load (some l) = .ret l (some l) false
    ∧ lemmatizer (some l) (none : Option L) = .ret l (some l) true :=
  ⟨rfl, rfl⟩

/-- C5: `init_Qformer` builds the Q-Former from a BERT configuration with
`add_cross_attention = True`, the given `cross_attention_freq` (default 2)
and `query_length`, and `encoder_width = vision_width`, together with a
query-token parameter of shape `(1, num_query_token, hidden_size)`
initialized from a normal distribution with mean 0 and the configuration's
`initializer_range` as standard deviation. -/
theorem init_Qformer_spec (base_config : BertConfig)
    (num_query_token vision_width cross_attention_freq : Nat) :
    (init_Qformer base_config num_query_token vision_width
        cross_attention_freq).1.config.add_cross_attention = true
    ∧ (init_Qformer base_config num_query_token vision_width
        cross_attention_freq).1.config.cross_attention_freq = cross_attention_freq
    ∧ (init_Qformer base_config num_query_token vision_width
        cross_attention_freq).1.config.query_length = num_query_token
    ∧ (init_Qformer base_config num_query_token vision_width
        cross_attention_freq).1.config.encoder_width = vision_width
    ∧ (init_Qformer base_config num_query_token vision_width
        cross_attention_freq).2.shape = [1, num_query_token, base_config.hidden_size]
    ∧ (init_Qformer base_config num_query_token vision_width
        cross_attention_freq).2.init = .normal 0 base_config.initializer_range
    ∧ init_Qformer base_config num_query_token vision_width
        = init_Qformer base_config num_query_token vision_width 2 :=
  ⟨rfl, rfl, rfl, rfl, rfl, rfl, rfl⟩

/-- C6: `init_vision_encoder` raises `AssertionError` for every model name
outside the accepted list; for `"eva_clip_g"` and `"clip_L"` it constructs
the corresponding encoder, records the name in `self.vit_name`, and returns
the encoder paired with a `LayerNorm` over the encoder's `num_features`. -/
theorem init_vision_encoder_spec (env : VisionEnv) (self : VitNameState)
    (img_size : Nat) (drop_path_rate : ℚ) (use_grad_checkpoint : Bool)
    (precision model_root_dir : String) :
    (∀ model_name, model_name ∉ ["eva_clip_g", "eva2_clip_L", "clip_L"] →
      init_vision_encoder env self model_name img_size drop_path_rate
          use_grad_checkpoint precision model_root_dir
        = .error (.assertionError "vit model must be eva_clip_g, eva2_clip_L or clip_L"))
    ∧ init_vision_encoder env self "eva_clip_g" img_size drop_path_rate
          use_grad_checkpoint precision model_root_dir
        = .ok ({ self with vit_name := "eva_clip_g" },
            env.create_eva_vit_g img_size drop_path_rate use_grad_checkpoint
              precision model_root_dir,
            ⟨(env.create_eva_vit_g img_size drop_path_rate use_grad_checkpoint
              precision model_root_dir).num_features⟩)
    ∧ init_vision_encoder env self "clip_L" img_size drop_path_rate
          use_grad_checkpoint precision model_root_dir
        = .ok ({ self with vit_name := "clip_L" },
            env.create_clip_vit_L img_size use_grad_checkpoint precision
              model_root_dir,
            ⟨(env.create_clip_vit_L img_size use_grad_checkpoint precision
              model_root_dir).num_features⟩) := by
  refine ⟨?_, ?_, ?_⟩
  · intro model_name hm
    simp only [init_vision_encoder, if_pos hm]
  · rfl
  · rfl

/-- Witness for C6 at a concrete rejected model name. -/
theorem init_vision_encoder_spec_witness :
    "resnet50" ∉ ["eva_clip_g", "eva2_clip_L", "clip_L"]
    ∧ init_vision_encoder c6Env ⟨""⟩ "resnet50" 224 0 false "fp16" "models"
      = .error (.assertionError "vit model must be eva_clip_g, eva2_clip_L or clip_L") :=
  ⟨by decide,
   (init_vision_encoder_spec c6Env ⟨""⟩ 224 0 false "fp16" "models").1
     "resnet50" (by decide)⟩

/-- C8: `"eva2_clip_L"` passes the assertion but no branch assigns
`visual_encoder`, so `init_vision_encoder` raises `UnboundLocalError`. -/
theorem init_vision_encoder_eva2_unbound (env : VisionEnv) (self : VitNameState)
    (img_size : Nat) (drop_path_rate : ℚ) (use_grad_checkpoint : Bool)
    (precision model_root_dir : String) :
    init_vision_encoder env self "eva2_clip_L" img_size drop_path_rate
        use_grad_checkpoint precision model_root_dir
      = .error .unboundLocalError := rfl

/-- C9: when `vit_name` is not `"eva_clip_g"`, `get_optimizer_params`
delegates to `super().get_optimizer_params`, which does not exist on
`torch.nn.Module`, so the call raises `AttributeError` for every
`weight_decay` and `lr_scale`. -/
theorem get_optimizer_params_super_missing (self : OptimSelf)
    (weight_decay lr_scale : ℚ) (h : self.vit_name ≠ "eva_clip_g") :
    get_optimizer_params self weight_decay lr_scale = .error .attributeError := by
  unfold get_optimizer_params
  rw [if_neg h]

/-- Witness for C9 at a concrete state with `vit_name = "clip_L"`. -/
theorem get_optimizer_params_super_missing_witness :
    c9Self.vit_name ≠ "eva_clip_g"
    ∧ get_optimizer_params c9Self (1/100) 1 = .error .attributeError :=
  ⟨by decide, get_optimizer_params_super_missing c9Self (1/100) 1 (by decide)⟩

/-- C10: `LayerNorm.forward` computes on the input cast to `float32` and
casts the result back, so the output dtype always equals the input dtype. -/
theorem LayerNorm_forward_dtype {α : Type}
    (superForward : PyTensor α → PyTensor α) (cast : DType → α → α)
    (x : PyTensor α) :
    (LayerNorm.forward superForward cast x).dtype = x.dtype
    ∧ LayerNorm.forward superForward cast x
        = (superForward (x.type cast DType.float32)).type cast x.dtype :=
  ⟨rfl, rfl⟩

/-- C2: with `vit_name = "eva_clip_g"`, `get_optimizer_params` implements
layer-wise learning-rate decay: every trainable parameter whose name
contains `'visual_encoder'` lands in a group with lr-scale
`lr_scale ** (vit_num_layers + 1 - layer_id)` for the parameter's
`layer_id`, every other trainable parameter lands in a group with lr-scale
1, and a group's weight decay is 0 when its parameters are one-dimensional
or named `*.bias` and the given `weight_decay` otherwise.  The hypothesis
`hbound` records that `get_num_layer` returns layer ids within the
`lr_scales` table, which the external `eva_vit` implementation
guarantees. -/
theorem get_optimizer_params_layer_decay (self : OptimSelf)
    (weight_decay lr_scale : ℚ)
    (hvit : self.vit_name = "eva_clip_g")
    (hbound : ∀ str, self.visual_encoder.layer_of str
      ≤ self.visual_encoder.num_layers + 1) :
    ∃ groups, get_optimizer_params self weight_decay lr_scale = .ok groups
      ∧ ∀ name param, (name, param) ∈ self.named_parameters →
          param.requires_grad = true →
          ∃ g, g ∈ groups ∧ param ∈ g.params
            ∧ g.lr_scale = (if pyContains name "visual_encoder" = true then
                lr_scale ^ (self.visual_encoder.num_layers + 1 -
                  self.visual_encoder.layer_of (name.replace "visual_encoder." ""))
              else 1)
            ∧ g.weight_decay = (if param.shape.length = 1 ∨ pyEndsWith name ".bias" = true
                then 0 else weight_decay) := by
  obtain ⟨n', v', heq, _, hplace⟩ :=
    ogpLoop_spec self.visual_encoder.layer_of self.visual_encoder.num_layers
      lr_scale weight_decay hbound self.named_parameters [] [] rfl
      (by intro k g h; cases h)
  refine ⟨v'.map (·.2), ?_, ?_⟩
  · simp only [get_optimizer_params]
    rw [if_pos hvit, heq]
  · intro name param hmem hrg
    obtain ⟨k, g, hkg, hp, hl, hw⟩ := hplace name param hmem hrg
    exact ⟨g, List.mem_map.mpr ⟨(k, g), hkg, rfl⟩, hp, hl, hw⟩

/-- Witness for C2 at a concrete state: two vision-encoder parameters, two
Q-Former parameters and one frozen parameter. -/
theorem get_optimizer_params_layer_decay_witness :
    c2Self.vit_name = "eva_clip_g"
    ∧ (∀ str, c2Self.visual_encoder.layer_of str
        ≤ c2Self.visual_encoder.num_layers + 1)
    ∧ ∃ groups, get_optimizer_params c2Self (1/100) 2 = .ok groups
        ∧ ∀ name param, (name, param) ∈ c2Self.named_parameters →
            param.requires_grad = true →
            ∃ g, g ∈ groups ∧ param ∈ g.params
              ∧ g.lr_scale = (if pyContains name "visual_encoder" = true then
                  (2 : ℚ) ^ (c2Self.visual_encoder.num_layers + 1 -
                    c2Self.visual_encoder.layer_of (name.replace "visual_encoder." ""))
                else 1)
              ∧ g.weight_decay = (if param.shape.length = 1 ∨ pyEndsWith name ".bias" = true
                  then 0 else (1/100 : ℚ)) :=
  ⟨rfl, fun _ => by exact (by decide : (1 : Nat) ≤ 2 + 1),
    get_optimizer_params_layer_decay c2Self (1/100) 2 rfl
      (fun _ => by exact (by decide : (1 : Nat) ≤ 2 + 1))⟩

/-- C7: `init_tokenizer` returns the pretrained `"bert-base-uncased"`
tokenizer with the given `truncation_side` (default `"right"`) and the
special token `"[DEC]"` registered as `bos_token`. -/
theorem init_tokenizer_spec (truncation_side : String) :
    (init_tokenizer truncation_side).name_or_path = "bert-base-uncased"
    ∧ (init_tokenizer truncation_side).truncation_side = truncation_side
    ∧ (init_tokenizer truncation_side).bos_token = some "[DEC]"
    ∧ (init_tokenizer).truncation_side = "right" :=
  ⟨rfl, rfl, rfl, rfl⟩

end Blip2
